import Mathlib

/-!
# Verification of the rad-clause recommendation engine

Shallow embedding of the scoring/matching core of the rad-claude MCP server:

* `src/tools/suggest-agent.ts` — agent catalog, `matchAgent`, `suggestAgent`
* `src/tools/get-skill-resources.ts` — `extractTopic`, `calculateRelevance`,
  `getSkillResources` (pure scoring pipeline)
* `src/services/skill-discovery.ts` — keyword extraction post-processing
* `src/tools/get-relevant-skills.ts` + the inline zod schemas in
  `src/index.ts` — input validation and the skill-scoring entry point
* the weighted skill scorer (`pattern-matcher.ts` / `confidence-scorer.ts`)
  is not part of the available sources and is modelled from the spec where
  needed; such definitions carry a `Modelled from the spec:` doc comment.

Strings are modelled as Lean `String` (a wrapper around `List Char`);
JS string primitives (`toLowerCase`, `trim`, `includes`) are modelled on the
character list, with ASCII case folding (every catalog signal and every
scenario input is ASCII).
-/

/-- Whitespace recognised by JS `String.prototype.trim` (ASCII subset:
space, tab, newline, carriage return, vertical tab, form feed). -/
def isJsWhitespace (c : Char) : Bool :=
  c == ' ' || c == '\t' || c == '\n' || c == '\r' ||
    c == Char.ofNat 11 || c == Char.ofNat 12

/-- JS `String.prototype.trim` on the underlying character list: drop
whitespace from both ends. -/
def trimChars (s : List Char) : List Char :=
  ((s.dropWhile isJsWhitespace).reverse.dropWhile isJsWhitespace).reverse

/-- JS `String.prototype.trim`. -/
def trimStr (s : String) : String := ⟨trimChars s.data⟩

/-- JS `String.prototype.toLowerCase` (ASCII case folding). -/
def lowerStr (s : String) : String := ⟨s.data.map Char.toLower⟩

/-- `charsStartWith hay needle`: `needle` is a prefix of `hay`. -/
def charsStartWith : List Char → List Char → Bool
  | _, [] => true
  | [], _ :: _ => false
  | c :: cs, d :: ds => c == d && charsStartWith cs ds

/-- `charsContain hay needle`: `needle` occurs as a contiguous substring of
`hay`.  Like JS `String.prototype.includes`, the empty needle matches every
string (including the empty one). -/
def charsContain : List Char → List Char → Bool
  | [], needle => needle.isEmpty
  | c :: cs, needle => charsStartWith (c :: cs) needle || charsContain cs needle

/-- JS `hay.includes(needle)`. -/
def includesStr (hay needle : String) : Bool := charsContain hay.data needle.data

/-! ## Agent catalog and scorer (`src/tools/suggest-agent.ts`) -/

/-- `AgentMetadata` from suggest-agent.ts. -/
structure AgentMetadata where
  name : String
  description : String
  whenToUse : String
  complexitySignals : List String
  domainSignals : List String
  estimatedDuration : String
  deriving DecidableEq

/-- First entry of the `AGENTS` catalog. -/
def taskSpecCreator : AgentMetadata where
  name := "task-spec-creator"
  description := "Creates detailed task specifications for complex features"
  whenToUse := "Multi-step features, architectural changes, tasks >4 hours"
  complexitySignals :=
    ["multi-step", "architecture", "refactor entire", "redesign", "rebuild",
     "major feature", "complex", "system", "build", "implement new",
     "add feature"]
  domainSignals := ["feature", "system", "workflow", "integration"]
  estimatedDuration := ">4 hours"

/-- Second entry of the `AGENTS` catalog. -/
def convexArchitect : AgentMetadata where
  name := "convex-architect"
  description :=
    "Expert in Convex backend implementation with security best practices"
  whenToUse :=
    "Convex backend work, mutations, queries, schemas, database design"
  complexitySignals := ["implement", "create", "build", "design", "refactor"]
  domainSignals :=
    ["convex", "mutation", "query", "action", "schema", "database",
     "backend", "api", "server"]
  estimatedDuration := "1-4 hours"

/-- Third entry of the `AGENTS` catalog. -/
def securityAuditor : AgentMetadata where
  name := "security-auditor"
  description := "Reviews code for security vulnerabilities and best practices"
  whenToUse := "Security reviews, auth implementation, vulnerability assessment"
  complexitySignals := ["audit", "review", "check", "verify", "assess", "analyze"]
  domainSignals :=
    ["security", "auth", "authentication", "authorization", "validation",
     "sanitize", "vulnerability", "exploit", "xss", "sql injection", "csrf"]
  estimatedDuration := "1-2 hours"

/-- Fourth entry of the `AGENTS` catalog. -/
def planReviewer : AgentMetadata where
  name := "plan-reviewer"
  description := "Reviews task specifications and implementation plans"
  whenToUse := "Reviewing plans, assessing feasibility, catching issues early"
  complexitySignals := ["review", "assess", "evaluate", "check", "validate"]
  domainSignals :=
    ["plan", "specification", "task spec", "design", "approach", "strategy"]
  estimatedDuration := "30 minutes - 1 hour"

/-- The hardcoded `AGENTS` catalog, in iteration order. -/
def AGENTS : List AgentMetadata :=
  [taskSpecCreator, convexArchitect, securityAuditor, planReviewer]

/-- Result of `matchAgent` (the generated `reasoning` string is a
presentation detail built from `matchedSignals` and is not modelled). -/
structure MatchResult where
  confidence : Nat
  matchedSignals : List String
  deriving DecidableEq

/-- `matchAgent` from suggest-agent.ts: lower-case the prompt, collect the
complexity signals contained in it (in catalog order) followed by the domain
signals contained in it; zero matches give confidence 0, otherwise
`min 95 (60 + (length - 1) * 10)`. -/
def matchAgent (prompt : String) (agent : AgentMetadata) : MatchResult :=
  let normalizedPrompt := lowerStr prompt
  let matchedSignals :=
    agent.complexitySignals.filter (fun s => includesStr normalizedPrompt s) ++
      agent.domainSignals.filter (fun s => includesStr normalizedPrompt s)
  if matchedSignals.isEmpty then ⟨0, []⟩
  else ⟨min 95 (60 + (matchedSignals.length - 1) * 10), matchedSignals⟩

/-- An entry of the recommendation list returned by `suggestAgent`
(`reasoning` omitted: presentation-only). -/
structure AgentRecommendation where
  agent : AgentMetadata
  confidence : Nat
  matchedSignals : List String
  deriving DecidableEq

/-- Comparator relation of the `recommendations.sort((a, b) =>
b.confidence - a.confidence)` call: `x` may come before `y` iff
`x.confidence ≥ y.confidence`. -/
def recGE (x y : AgentRecommendation) : Prop := y.confidence ≤ x.confidence

instance : DecidableRel recGE := fun x y => Nat.decLe y.confidence x.confidence

/-- The unsorted recommendation list of `suggestAgent`: iterate `AGENTS` in
catalog order and keep the agents whose confidence is at least 50. -/
def baseRecommendations (prompt : String) : List AgentRecommendation :=
  AGENTS.filterMap (fun agent =>
    let m := matchAgent prompt agent
    if 50 ≤ m.confidence then some ⟨agent, m.confidence, m.matchedSignals⟩
    else none)

/-- The recommendation list of `suggestAgent` (post-validation): the unsorted
list sorted descending by confidence.  JS `Array.prototype.sort` is a stable
sort, modelled by `List.insertionSort` with the `recGE` total preorder. -/
def suggestAgentRecs (prompt : String) : List AgentRecommendation :=
  List.insertionSort recGE (baseRecommendations prompt)

/-! ## Input validation (zod schemas)

`suggestAgentInputSchema` is `z.object({ prompt:
z.string().trim().min(1).max(10000) })`; the `get_relevant_skills`
registration in `src/index.ts` uses the same
`z.string().trim().min(1).max(10000)` prompt schema.  zod applies `.trim()`
as a transform first, so `.min(1)` and `.max(10000)` check the *trimmed*
value, and the trimmed prompt is what the scorers receive.  A missing (or
non-string) prompt is modelled as `none`; a structured validation failure
(`ok: false`) is modelled as `Except.error ()`. -/

def validatePrompt : Option String → Except Unit String
  | none => Except.error ()
  | some s =>
    let t := trimStr s
    if t.length < 1 then Except.error ()
    else if 10000 < t.length then Except.error ()
    else Except.ok t

/-- `suggestAgent` from suggest-agent.ts: validate, then score and sort.
The error branch carries no scores by construction. -/
def suggestAgentModel (input : Option String) :
    Except Unit (List AgentRecommendation) :=
  (validatePrompt input).map suggestAgentRecs

/-- `Except.isOk` as a plain boolean. -/
def exceptIsOk : Except Unit α → Bool
  | Except.ok _ => true
  | Except.error _ => false

/-! ## Claim-side signal counts for the agent scorer

`matchedOccurrences` counts the matched signals the way `matchAgent` collects
them (one occurrence per catalog-list entry, so a string present in both
signal lists of one agent counts twice); `claimDistinctCount` counts the
*distinct* matched signal strings across both lists combined, which is the
quantity named by the spec sentence under scrutiny. -/

def matchedOccurrences (prompt : String) (agent : AgentMetadata) : Nat :=
  (agent.complexitySignals.filter
      (fun s => includesStr (lowerStr prompt) s)).length +
    (agent.domainSignals.filter
      (fun s => includesStr (lowerStr prompt) s)).length

def claimDistinctCount (prompt : String) (agent : AgentMetadata) : Nat :=
  (((agent.complexitySignals ++ agent.domainSignals).filter
      (fun s => includesStr (lowerStr prompt) s)).dedup).length

/-- The hypothetical catalog entry of spec Scenario 3: complexity signals
`{"review"}`, domain signals `{"security", "auth"}`. -/
def scenarioAgent : AgentMetadata where
  name := "scenario-agent"
  description := "scenario 3 agent"
  whenToUse := "scenario 3"
  complexitySignals := ["review"]
  domainSignals := ["security", "auth"]
  estimatedDuration := "1 hour"

/-! ## Resource discovery scoring (`src/tools/get-skill-resources.ts`) -/

/-- `charsEndWith s suffix`: `suffix` is a suffix of `s`. -/
def charsEndWith (s suffix : List Char) : Bool :=
  charsStartWith s.reverse suffix.reverse

/-- `extractTopic` from get-skill-resources.ts: strip a trailing `.md`
(`MD_EXTENSION_REGEX`), turn every dash into a space (`DASH_REGEX`); the
`DIGIT_REGEX` replacement maps every digit run to itself and is the
identity. -/
def extractTopic (fileName : String) : String :=
  let base :=
    if charsEndWith fileName.data [Char.ofNat 46, 'm', 'd'] then
      fileName.data.take (fileName.data.length - 3)
    else fileName.data
  ⟨base.map (fun c => if c == '-' then ' ' else c)⟩

/-- A resource file as scored by `calculateRelevance` (`filePath` and
`skillName` are plumbing for file reads and output echoing; they do not
enter the scoring and are not modelled). -/
structure ResourceFile where
  fileName : String
  topic : String
  deriving DecidableEq

/-- Result of `calculateRelevance`; `matchedTerms` keeps the matched topic
string (if any) followed by the matched keywords, without the
`topic:`/`keyword:` display prefixes used by the reasoning text. -/
structure RelevanceResult where
  relevance : Nat
  matchedTerms : List String
  deriving DecidableEq

/-- The pre-clamp relevance accumulated by `calculateRelevance`: base 50,
plus 40 when a topic is supplied, *non-empty* (JS truthiness of the zod
trimmed topic) and contained in the lower-cased resource topic, plus 10 per
keyword contained in it.  The loop that adds 10 per matched keyword is
rendered as `10 *` the number of matching keywords; the
`keywords && keywords.length > 0` guard only skips an empty loop and is
dropped. -/
def rawRelevance (resourceTopic : String) (topic : Option String)
    (keywords : List String) : Nat :=
  let normalizedTopic := lowerStr resourceTopic
  let topicBonus :=
    match topic with
    | some t =>
      if !t.isEmpty && includesStr normalizedTopic (lowerStr t) then 40 else 0
    | none => 0
  50 + topicBonus +
    10 * (keywords.filter
      (fun k => includesStr normalizedTopic (lowerStr k))).length

/-- `calculateRelevance` from get-skill-resources.ts: the accumulated
relevance clamped to at most 100 (`Math.min(100, relevance)`), together with
the matched terms. -/
def calculateRelevance (resourceTopic : String) (topic : Option String)
    (keywords : List String) : RelevanceResult :=
  let normalizedTopic := lowerStr resourceTopic
  let topicTerms : List String :=
    match topic with
    | some t =>
      if !t.isEmpty && includesStr normalizedTopic (lowerStr t) then [t]
      else []
    | none => []
  { relevance := min 100 (rawRelevance resourceTopic topic keywords)
    matchedTerms :=
      topicTerms ++ keywords.filter
        (fun k => includesStr normalizedTopic (lowerStr k)) }

/-- The relevance formula exactly as the claim states it: +40 whenever the
supplied topic string is a (case-insensitive) substring of the derived
topic — with no non-emptiness condition on the topic. -/
def relevanceClaimFormula (resourceTopic : String) (topic : Option String)
    (keywords : List String) : Nat :=
  let normalizedTopic := lowerStr resourceTopic
  min 100 (50 +
    (match topic with
     | some t => if includesStr normalizedTopic (lowerStr t) then 40 else 0
     | none => 0) +
    10 * (keywords.filter
      (fun k => includesStr normalizedTopic (lowerStr k))).length)

/-- The amended relevance formula: as the claim, except that an empty
supplied topic string (JS-falsy after the zod trim) earns no +40. -/
def relevanceAmendedFormula (resourceTopic : String) (topic : Option String)
    (keywords : List String) : Nat :=
  let normalizedTopic := lowerStr resourceTopic
  min 100 (50 +
    (match topic with
     | some t =>
       if !t.isEmpty && includesStr normalizedTopic (lowerStr t) then 40
       else 0
     | none => 0) +
    10 * (keywords.filter
      (fun k => includesStr normalizedTopic (lowerStr k))).length)

/-- An entry of the recommendation list returned by `getSkillResources`
(`reasoning` replaced by the matched terms it is generated from). -/
structure ResourceRecommendation where
  resource : ResourceFile
  relevance : Nat
  matchedTerms : List String
  deriving DecidableEq

/-- Comparator relation of `recommendations.sort((a, b) =>
b.relevance - a.relevance)`. -/
def resGE (x y : ResourceRecommendation) : Prop := y.relevance ≤ x.relevance

instance : DecidableRel resGE := fun x y => Nat.decLe y.relevance x.relevance

/-- The per-resource step of the `resources.map` call in
`getSkillResources`: package a resource with its relevance score and
matched terms. -/
def scoreResource (topic : Option String) (keywords : List String)
    (res : ResourceFile) : ResourceRecommendation :=
  let r := calculateRelevance res.topic topic keywords
  { resource := res, relevance := r.relevance, matchedTerms := r.matchedTerms }

/-- The pure scoring pipeline of `getSkillResources` (post-validation,
post-discovery): score every discovered resource, sort descending by
relevance (stable JS sort, modelled by `List.insertionSort`), keep the
entries with relevance strictly greater than 40, and report the total
number of discovered resources. -/
def getSkillResourcesPure (resources : List ResourceFile)
    (topic : Option String) (keywords : List String) :
    List ResourceRecommendation × Nat :=
  (((List.insertionSort resGE
        (resources.map (scoreResource topic keywords))).filter
      (fun r => 40 < r.relevance)),
    resources.length)

/-! ## Keyword extraction post-processing
(`src/services/skill-discovery.ts`, `extractKeywords` lines 103-107) -/

/-- JS `String.prototype.split(',')` on a character list: `splitCommaAux s
[]` returns the comma-separated chunks of `s` (an empty input yields one
empty chunk, like JS). -/
def splitCommaAux : List Char → List Char → List (List Char)
  | [], acc => [acc.reverse]
  | c :: cs, acc =>
    if c == ',' then acc.reverse :: splitCommaAux cs []
    else splitCommaAux cs (c :: acc)

/-- The keyword post-processing of `extractKeywords` applied to the text
captured after `Keywords:` (the regex capture itself is line selection, not
signal processing): split on commas, trim and lower-case each chunk, and
drop the empty ones (`filter (k => k.length > 0)`). -/
def extractKeywordsFromLine (line : String) : List String :=
  ((splitCommaAux line.data []).map
      (fun k => (⟨(trimChars k).map Char.toLower⟩ : String))).filter
    (fun k => 0 < k.length)

/-! ## Weighted skill scorer

`pattern-matcher.ts` and `confidence-scorer.ts` are not among the available
sources (only their caller `get-relevant-skills.ts` is), so the per-skill
scorer below is modelled from the spec. -/

/-- Modelled from the spec: glob matching for the file-pattern category
(`*` matches any run of characters, every other character matches
itself). -/
def globMatch : List Char → List Char → Bool
  | [], [] => true
  | [], _ :: _ => false
  | '*' :: ps, [] => globMatch ps []
  | '*' :: ps, c :: cs => globMatch ps (c :: cs) || globMatch ('*' :: ps) cs
  | _ :: _, [] => false
  | p :: ps, c :: cs => p == c && globMatch ps cs
termination_by p s => p.length + s.length

/-- Modelled from the spec: a scoreable skill item — name, lower-cased
keywords, file-glob patterns, and the content/semantic signal vocabulary of
the content category. -/
structure Skill where
  name : String
  keywords : List String
  filePatterns : List String
  contentSignals : List String
  deriving DecidableEq

/-- Modelled from the spec: the per-category percentage — the fraction of
the item's declared signals that were matched, scaled to 0–100 and
saturating at 100 (monotonic in the number of hits); a category with no
declared signals scores 0. -/
def categoryFraction (matched declared : Nat) : ℚ :=
  if declared = 0 then 0 else min 100 ((100 : ℚ) * matched / declared)

/-- Round to the nearest integer and clamp to `[0, 100]`. -/
def clampRound (q : ℚ) : Nat := (max 0 (min 100 (round q))).toNat

/-- The keywords of `sk` contained in the lower-cased prompt (keywords are
stored lower-cased at catalog-load time). -/
def matchedKeywordsOf (prompt : String) (sk : Skill) : List String :=
  sk.keywords.filter (fun k => includesStr (lowerStr prompt) k)

/-- The content signals of `sk` contained in the lower-cased prompt. -/
def matchedContentOf (prompt : String) (sk : Skill) : List String :=
  sk.contentSignals.filter (fun s => includesStr (lowerStr prompt) s)

/-- The file patterns of `sk` matched by at least one open file path. -/
def matchedPatternsOf (files : List String) (sk : Skill) : List String :=
  sk.filePatterns.filter (fun pat => files.any (fun f => globMatch pat.data f.data))

/-- Modelled from the spec: the weighted confidence of one skill.  Nominal
weights keywords 40, files 30, content 30; the keyword and content
categories are always applicable, the file category only when at least one
open file was supplied.  The weight of a non-applicable category is
redistributed proportionally over the applicable ones (weighted average over
the applicable weights), and the result is rounded and clamped to
`[0, 100]`. -/
def skillConfidence (prompt : String) (files : List String) (sk : Skill) : Nat :=
  let kwPct := categoryFraction (matchedKeywordsOf prompt sk).length sk.keywords.length
  let ctPct := categoryFraction (matchedContentOf prompt sk).length sk.contentSignals.length
  if files.isEmpty then
    clampRound ((40 * kwPct + 30 * ctPct) / 70)
  else
    let fPct := categoryFraction (matchedPatternsOf files sk).length sk.filePatterns.length
    clampRound ((40 * kwPct + 30 * ctPct + 30 * fPct) / 100)

/-- An entry of the skill match list (per-category sub-scores and matched
signal lists omitted; the claims under scrutiny only concern the confidence
and the item). -/
structure SkillMatch where
  skill : Skill
  confidence : Nat
  deriving DecidableEq

/-- Comparator relation of the descending sort on skill confidence. -/
def skillGE (x y : SkillMatch) : Prop := y.confidence ≤ x.confidence

instance : DecidableRel skillGE := fun x y => Nat.decLe y.confidence x.confidence

/-- Modelled from the spec: `matchPromptToSkills` — score every catalog
item, exclude the items with zero confidence, and sort descending by
confidence (stable). -/
def matchPromptToSkillsModel (prompt : String) (files : List String)
    (skills : List Skill) : List SkillMatch :=
  List.insertionSort skillGE
    ((skills.map (fun sk =>
        ({ skill := sk, confidence := skillConfidence prompt files sk }
          : SkillMatch))).filter
      (fun m => 0 < m.confidence))

/-- The value part of a successful `getRelevantSkills` result
(`skillMatches` renders the source field `matches`, which is a reserved
word in Lean). -/
structure GetRelevantSkillsOutput where
  skillMatches : List SkillMatch
  totalSkillsScanned : Nat
  deriving DecidableEq

/-- `getRelevantSkills` from get-relevant-skills.ts: validate the prompt
(zod schema), then match it against the supplied skill catalog and report
`totalSkillsScanned = skills.length`; the per-skill scoring inside
`matchPromptToSkills` is the spec-modelled part. -/
def getRelevantSkillsModel (input : Option String) (files : List String)
    (skills : List Skill) : Except Unit GetRelevantSkillsOutput :=
  (validatePrompt input).map (fun p =>
    { skillMatches := matchPromptToSkillsModel p files skills
      totalSkillsScanned := skills.length })

/-- `recGE` is total (`Nat.le_total` on the confidences). -/
instance : IsTotal AgentRecommendation recGE :=
  ⟨fun a b => Nat.le_total b.confidence a.confidence⟩

/-- `recGE` is transitive. -/
instance : IsTrans AgentRecommendation recGE :=
  ⟨fun _ _ _ hab hbc => le_trans hbc hab⟩

/-- A raw prompt of 10001 characters (10000 letters and one trailing
space) whose zod-trimmed form has exactly the maximal accepted length
10000. -/
def longPromptChars : String := ⟨List.replicate 10000 'a' ++ [' ']⟩

/-! ## Helper lemmas -/

/-- The empty needle is contained in every string (JS `includes('')`). -/
theorem charsContain_nil (hay : List Char) : charsContain hay [] = true := by
  cases hay <;> simp [charsContain, charsStartWith, List.isEmpty]

/-- `matchAgent`'s confidence, written through the number of matched signal
occurrences (one per catalog-list entry). -/
theorem matchAgent_confidence_eq (p : String) (a : AgentMetadata) :
    (matchAgent p a).confidence =
      if matchedOccurrences p a = 0 then 0
      else min 95 (60 + (matchedOccurrences p a - 1) * 10) := by
  unfold matchAgent matchedOccurrences
  simp only [List.isEmpty_iff, ← List.length_append]
  by_cases h :
      (a.complexitySignals.filter (fun s => includesStr (lowerStr p) s) ++
        a.domainSignals.filter (fun s => includesStr (lowerStr p) s)) = []
  · simp [h]
  · rw [if_neg h, if_neg (by simpa [List.length_eq_zero] using h)]

/-- `matchAgent` returns either 0 or a confidence in `[60, 95]`. -/
theorem matchAgent_confidence_cases (p : String) (a : AgentMetadata) :
    (matchAgent p a).confidence = 0 ∨
      (60 ≤ (matchAgent p a).confidence ∧ (matchAgent p a).confidence ≤ 95) := by
  rw [matchAgent_confidence_eq]
  by_cases h : matchedOccurrences p a = 0
  · exact Or.inl (by rw [if_pos h])
  · refine Or.inr ?_
    rw [if_neg h]
    exact ⟨Nat.le_min.mpr ⟨by norm_num, Nat.le_add_right 60 _⟩,
      Nat.min_le_left _ _⟩

/-- Every member of the unsorted recommendation list comes from a catalog
agent via `matchAgent`, and passed the `confidence >= 50` filter. -/
theorem of_mem_baseRecommendations {p : String} {r : AgentRecommendation}
    (h : r ∈ baseRecommendations p) :
    r.agent ∈ AGENTS ∧
      r.confidence = (matchAgent p r.agent).confidence ∧
      r.matchedSignals = (matchAgent p r.agent).matchedSignals ∧
      50 ≤ r.confidence := by
  unfold baseRecommendations at h
  rw [List.mem_filterMap] at h
  obtain ⟨a, ha, hf⟩ := h
  by_cases hc : 50 ≤ (matchAgent p a).confidence
  · simp only [if_pos hc] at hf
    cases hf
    exact ⟨ha, rfl, rfl, hc⟩
  · simp [if_neg hc] at hf

/-- Membership in the sorted recommendation list is membership in the
unsorted one. -/
theorem mem_suggestAgentRecs {p : String} {r : AgentRecommendation} :
    r ∈ suggestAgentRecs p ↔ r ∈ baseRecommendations p :=
  List.mem_insertionSort recGE

/-- C1 counterexample: for the catalog agent `task-spec-creator` (whose two
signal lists share the string `"system"`) and the prompt `"system"`, there
is exactly 1 distinct matched signal across both sets combined, so the
claimed formula gives `min 95 (60 + 10*(1-1)) = 60`, yet the scorer counts
the shared signal twice and returns 70. -/
theorem agent_distinct_formula_cex :
    claimDistinctCount "system" taskSpecCreator = 1 ∧
    (matchAgent "system" taskSpecCreator).confidence = 70 ∧
    (matchAgent "system" taskSpecCreator).confidence ≠
      min 95 (60 + 10 * (claimDistinctCount "system" taskSpecCreator - 1)) :=
  ⟨by decide, by decide, by decide⟩

/-- C1 (amended): for every agent and every prompt, the confidence is 0 when
no signal occurrence matches, and otherwise exactly
`min 95 (60 + 10*(d-1))` where `d` counts the matched signal *occurrences*
across the complexity and domain signal lists (a string present in both
lists of one agent counts once per list, not once); in particular, for an
agent with complexity signals `{"review"}` and domain signals
`{"security", "auth"}` and the prompt
`"please review this for security and auth issues"`, the confidence is
80. -/
theorem agent_confidence_occurrence_formula :
    (∀ (p : String) (a : AgentMetadata),
      (matchAgent p a).confidence =
        if matchedOccurrences p a = 0 then 0
        else min 95 (60 + 10 * (matchedOccurrences p a - 1))) ∧
    (matchAgent "please review this for security and auth issues"
      scenarioAgent).confidence = 80 := by
  constructor
  · intro p a
    rw [matchAgent_confidence_eq, Nat.mul_comm]
  · decide

/-- C3: every possible agent confidence is 0 or lies in `[50, 95]`; every
returned recommendation has confidence in `[50, 95]`; and an agent with
zero matched signals across all its signal sets never appears in the
returned list. -/
theorem agent_results_threshold_and_range :
    (∀ (p : String) (a : AgentMetadata),
      (matchAgent p a).confidence = 0 ∨
        (50 ≤ (matchAgent p a).confidence ∧
          (matchAgent p a).confidence ≤ 95)) ∧
    (∀ (p : String) (r : AgentRecommendation), r ∈ suggestAgentRecs p →
      50 ≤ r.confidence ∧ r.confidence ≤ 95) ∧
    (∀ (p : String) (a : AgentMetadata), matchedOccurrences p a = 0 →
      ∀ r ∈ suggestAgentRecs p, r.agent ≠ a) := by
  refine ⟨?_, ?_, ?_⟩
  · intro p a
    rcases matchAgent_confidence_cases p a with h | ⟨h1, h2⟩
    · exact Or.inl h
    · exact Or.inr ⟨le_trans (by norm_num) h1, h2⟩
  · intro p r hr
    obtain ⟨-, hconf, -, h50⟩ :=
      of_mem_baseRecommendations (mem_suggestAgentRecs.mp hr)
    refine ⟨h50, ?_⟩
    rcases matchAgent_confidence_cases p r.agent with h | ⟨-, h95⟩
    · omega
    · omega
  · intro p a ha r hr hagent
    obtain ⟨-, hconf, -, h50⟩ :=
      of_mem_baseRecommendations (mem_suggestAgentRecs.mp hr)
    rw [hagent] at hconf
    rw [matchAgent_confidence_eq, if_pos ha] at hconf
    omega

/-- Witness for C3 at the prompt `"audit security"`: the security-auditor
recommendation (confidence 70) is in the returned list, and the theorem
yields its bounds. -/
theorem agent_results_threshold_and_range_witness :
    50 ≤ (⟨securityAuditor, 70, ["audit", "security"]⟩
        : AgentRecommendation).confidence ∧
      (⟨securityAuditor, 70, ["audit", "security"]⟩
        : AgentRecommendation).confidence ≤ 95 :=
  agent_results_threshold_and_range.2.1 "audit security" _ (by decide)

/-- C10: every returned recommendation has confidence at least 60 (the base
for a single matched signal); nothing in `[50, 60)` is ever returned even
though the inclusion filter only demands `≥ 50`. -/
theorem agent_results_confidence_at_least_60 :
    ∀ (p : String) (r : AgentRecommendation),
      r ∈ suggestAgentRecs p → 60 ≤ r.confidence := by
  intro p r hr
  obtain ⟨-, hconf, -, h50⟩ :=
    of_mem_baseRecommendations (mem_suggestAgentRecs.mp hr)
  rcases matchAgent_confidence_cases p r.agent with h | ⟨h60, -⟩
  · omega
  · omega

/-- Witness for C10 at the prompt `"review the plan"`: the security-auditor
recommendation sits exactly at the 60 boundary. -/
theorem agent_results_confidence_at_least_60_witness :
    60 ≤ (⟨securityAuditor, 60, ["review"]⟩
      : AgentRecommendation).confidence :=
  agent_results_confidence_at_least_60 "review the plan" _ (by decide)

/-! ## C6: ordering of the agent recommendation list -/

/-- Inserting an element with `List.orderedInsert recGE` does not change the
sublist of entries of any fixed confidence `c`, relative to consing it in
front: the insertion point is past exactly the entries of strictly larger
confidence, none of which has confidence `c` when the inserted one does. -/
theorem filter_confEq_orderedInsert (c : Nat) (x : AgentRecommendation)
    (l : List AgentRecommendation) :
    (List.orderedInsert recGE x l).filter (fun r => r.confidence == c) =
      (x :: l).filter (fun r => r.confidence == c) := by
  induction l with
  | nil => rfl
  | cons y ys ih =>
    by_cases hxy : recGE x y
    · rw [List.orderedInsert, if_pos hxy]
    · rw [List.orderedInsert, if_neg hxy]
      by_cases hx : x.confidence = c
      · have hy : ¬ (y.confidence = c) := by
          intro hy
          exact hxy (by simp [recGE, hx, hy])
        simp [List.filter_cons, ih, hx, hy]
      · simp [List.filter_cons, ih, hx]

/-- The stable sort of the recommendation list keeps each equal-confidence
class of entries in its original relative order. -/
theorem filter_confEq_insertionSort (c : Nat)
    (l : List AgentRecommendation) :
    (List.insertionSort recGE l).filter (fun r => r.confidence == c) =
      l.filter (fun r => r.confidence == c) := by
  induction l with
  | nil => rfl
  | cons x xs ih =>
    rw [List.insertionSort, filter_confEq_orderedInsert, List.filter_cons,
      List.filter_cons, ih]

/-- C6: for every prompt, the returned agent recommendation list is sorted
in descending order of confidence (`recGE`), and for every confidence value
the entries carrying it appear exactly as in the unsorted list built by
iterating the catalog (stable sort, no secondary key), i.e. in catalog
iteration order. -/
theorem agent_results_sorted_and_stable :
    ∀ p : String,
      List.Sorted recGE (suggestAgentRecs p) ∧
      ∀ c : Nat,
        (suggestAgentRecs p).filter (fun r => r.confidence == c) =
          (baseRecommendations p).filter (fun r => r.confidence == c) := by
  intro p
  exact ⟨List.sorted_insertionSort recGE _,
    fun c => filter_confEq_insertionSort c _⟩

/-! ## C4, C5, C9: resource relevance and empty signals -/

/-- Every `calculateRelevance` score is at least the base 50. -/
theorem calculateRelevance_ge_fifty (rt : String) (t : Option String)
    (kws : List String) : 50 ≤ (calculateRelevance rt t kws).relevance := by
  simp only [calculateRelevance]
  rw [Nat.le_min]
  refine ⟨by norm_num, ?_⟩
  simp only [rawRelevance]
  omega

/-- Mapping the scored entries back to their resources recovers the input
list. -/
theorem map_resource_scoreResource (t : Option String) (kws : List String)
    (rs : List ResourceFile) :
    ((rs.map (scoreResource t kws)).map (fun r => r.resource)) = rs := by
  induction rs with
  | nil => rfl
  | cons a as ih => simp only [List.map_cons, ih, scoreResource]

/-- C4 counterexample: a caller-supplied zero-length resource keyword *does*
match (the empty string is a substring of every derived topic) and *does*
contribute a +10 bonus and a matched term: with resource topic
`"react 19 2 features"`, no topic filter and keywords `[""]`, the relevance
is 60 instead of the 50 scored without the empty keyword, and the empty
keyword appears among the matched terms. -/
theorem empty_keyword_bonus_cex :
    (calculateRelevance "react 19 2 features" none [""]).relevance = 60 ∧
    (calculateRelevance "react 19 2 features" none []).relevance = 50 ∧
    (calculateRelevance "react 19 2 features" none [""]).matchedTerms =
      [""] :=
  ⟨by decide, by decide, by decide⟩

/-- C4 (amended): zero-length *catalog* signal strings never arise — skill
keyword extraction filters out empty keywords, and no signal of the
hardcoded agent catalog is empty — so no catalog signal can match
universally; but the empty string is a substring of every string, and a
caller-supplied zero-length resource keyword matches every topic,
adding exactly +10 to the pre-clamp relevance. -/
theorem empty_signal_guard :
    (∀ (line : String), ∀ k ∈ extractKeywordsFromLine line, k.length ≠ 0) ∧
    (∀ a ∈ AGENTS, ∀ s ∈ a.complexitySignals ++ a.domainSignals,
      s.length ≠ 0) ∧
    (∀ hay : String, includesStr hay "" = true) ∧
    (∀ (rt : String) (t : Option String) (kws : List String),
      rawRelevance rt t ("" :: kws) = rawRelevance rt t kws + 10) := by
  refine ⟨?_, by decide, ?_, ?_⟩
  · intro line k hk
    unfold extractKeywordsFromLine at hk
    rw [List.mem_filter] at hk
    have h := of_decide_eq_true hk.2
    omega
  · intro hay
    simpa [includesStr] using charsContain_nil hay.data
  · intro rt t kws
    have hemp : includesStr (lowerStr rt) (lowerStr "") = true := by
      simpa [includesStr] using charsContain_nil (lowerStr rt).data
    simp only [rawRelevance, List.filter_cons, hemp, if_true,
      List.length_cons]
    omega

/-- Witness for C4 (amended), instantiating the guarded parts: the keyword
`"react"` extracted from `" react, ,bun "` is non-empty, and the catalog
signal `"convex"` of `convex-architect` is non-empty. -/
theorem empty_signal_guard_witness :
    ("react" : String).length ≠ 0 ∧ ("convex" : String).length ≠ 0 :=
  ⟨empty_signal_guard.1 " react, ,bun " "react" (by decide),
   empty_signal_guard.2.1 convexArchitect (by decide) "convex" (by decide)⟩

/-- C5 counterexample: a supplied *empty* topic string is a
(case-insensitive) substring of the derived topic `"react 19 2 features"`,
so the claimed formula awards +40 and yields 90, but the scorer treats the
empty topic as absent (JS falsiness) and returns the bare base 50. -/
theorem resource_empty_topic_cex :
    includesStr (lowerStr "react 19 2 features") (lowerStr "") = true ∧
    relevanceClaimFormula "react 19 2 features" (some "") [] = 90 ∧
    (calculateRelevance "react 19 2 features" (some "") []).relevance =
      50 :=
  ⟨by decide, by decide, by decide⟩

/-- C5 (amended): each resource's relevance equals base 50, plus 40 if a
*non-empty* topic string is supplied and is a case-insensitive substring of
the derived topic, plus 10 per supplied keyword contained in it, clamped at
100 (`relevanceAmendedFormula`); only resources with relevance strictly
greater than 40 are returned; and the Scenario-5 instance holds: the
resource file `react-19-2-features.md` has derived topic
`"react 19 2 features"`, scores exactly 90 for query topic `"react 19"`,
and is included in the returned list. -/
theorem resource_relevance_formula :
    (∀ (rt : String) (t : Option String) (kws : List String),
      (calculateRelevance rt t kws).relevance =
        relevanceAmendedFormula rt t kws) ∧
    (∀ (rs : List ResourceFile) (t : Option String) (kws : List String)
      (r : ResourceRecommendation),
      r ∈ (getSkillResourcesPure rs t kws).1 → 40 < r.relevance) ∧
    extractTopic "react-19-2-features.md" = "react 19 2 features" ∧
    (calculateRelevance "react 19 2 features" (some "react 19")
      []).relevance = 90 ∧
    ((getSkillResourcesPure
        [⟨"react-19-2-features.md", "react 19 2 features"⟩]
        (some "react 19") []).1).map (fun r => r.resource.fileName) =
      ["react-19-2-features.md"] := by
  refine ⟨?_, ?_, by decide, by decide, by decide⟩
  · intro rt t kws
    cases t <;>
      simp [calculateRelevance, rawRelevance, relevanceAmendedFormula]
  · intro rs t kws r hr
    simp only [getSkillResourcesPure] at hr
    rw [List.mem_filter] at hr
    exact of_decide_eq_true hr.2

/-- Witness for C5 (amended): the Scenario-5 recommendation (relevance 90)
is a member of the returned list and the theorem yields `40 < 90`. -/
theorem resource_relevance_formula_witness :
    40 < (⟨⟨"react-19-2-features.md", "react 19 2 features"⟩, 90,
      ["react 19"]⟩ : ResourceRecommendation).relevance :=
  resource_relevance_formula.2.1
    [⟨"react-19-2-features.md", "react 19 2 features"⟩]
    (some "react 19") [] _ (by decide)

/-- C9: `calculateRelevance` always returns at least the base 50, so the
strictly-greater-than-40 filter of `getSkillResources` never excludes a
discovered resource: the returned recommendations are (up to the sort) the
full resource list and `totalResources` equals its length. -/
theorem resource_filter_never_excludes :
    (∀ (rt : String) (t : Option String) (kws : List String),
      50 ≤ (calculateRelevance rt t kws).relevance) ∧
    (∀ (rs : List ResourceFile) (t : Option String) (kws : List String),
      ((getSkillResourcesPure rs t kws).1.map (fun r => r.resource)).Perm
          rs ∧
        (getSkillResourcesPure rs t kws).2 = rs.length) := by
  refine ⟨calculateRelevance_ge_fifty, ?_⟩
  intro rs t kws
  refine ⟨?_, rfl⟩
  simp only [getSkillResourcesPure]
  rw [List.filter_eq_self.mpr]
  · refine ((List.perm_insertionSort resGE _).map _).trans ?_
    rw [map_resource_scoreResource]
  · intro x hx
    rw [List.mem_insertionSort] at hx
    obtain ⟨res, hres, rfl⟩ := List.mem_map.mp hx
    refine decide_eq_true ?_
    have h := calculateRelevance_ge_fifty res.topic t kws
    simp only [scoreResource]
    omega

/-! ## C2, C7, C8: redistribution ceiling, validation, empty catalog -/

/-- A category whose declared signals are all matched scores the full
100%. -/
theorem categoryFraction_full {n : Nat} (h : n ≠ 0) :
    categoryFraction n n = 100 := by
  unfold categoryFraction
  rw [if_neg h]
  have hn : (n : ℚ) ≠ 0 := Nat.cast_ne_zero.mpr h
  rw [mul_div_assoc, div_self hn, mul_one, min_self]

/-- C2: with no open files supplied, the weight of the file category is
redistributed over the keyword and content categories, so a skill whose
keywords and content signals are all matched by the prompt reaches
confidence exactly 100 — the unavailable category does not cap the
ceiling. -/
theorem skill_redistribution_full_match :
    ∀ (sk : Skill) (prompt : String),
      sk.keywords ≠ [] → sk.contentSignals ≠ [] →
      (∀ k ∈ sk.keywords, includesStr (lowerStr prompt) k = true) →
      (∀ s ∈ sk.contentSignals, includesStr (lowerStr prompt) s = true) →
      skillConfidence prompt [] sk = 100 := by
  intro sk prompt hk hc hkm hcm
  have h1 : matchedKeywordsOf prompt sk = sk.keywords := by
    unfold matchedKeywordsOf
    exact List.filter_eq_self.mpr hkm
  have h2 : matchedContentOf prompt sk = sk.contentSignals := by
    unfold matchedContentOf
    exact List.filter_eq_self.mpr hcm
  have hk' : sk.keywords.length ≠ 0 := by
    simpa [List.length_eq_zero] using hk
  have hc' : sk.contentSignals.length ≠ 0 := by
    simpa [List.length_eq_zero] using hc
  simp only [skillConfidence, List.isEmpty_nil, if_true, h1, h2,
    categoryFraction_full hk', categoryFraction_full hc']
  norm_num [clampRound]
  decide

/-- Witness for C2: a skill with one keyword and one content signal, both
matched by the prompt `"convex webhook"`, scores 100 with no open files. -/
theorem skill_redistribution_full_match_witness :
    skillConfidence "convex webhook" []
      ⟨"demo", ["convex"], [], ["webhook"]⟩ = 100 :=
  skill_redistribution_full_match _ _ (by decide) (by decide) (by decide)
    (by decide)

/-- C8: scoring a valid prompt against an empty skill catalog is not an
error: the result is ok with an empty match list and
`totalSkillsScanned = 0`, for any open-file context. -/
theorem empty_catalog_not_error :
    ∀ (input : Option String) (files : List String) (p : String),
      validatePrompt input = Except.ok p →
      getRelevantSkillsModel input files [] =
        Except.ok ⟨[], 0⟩ := by
  intro input files p h
  unfold getRelevantSkillsModel
  rw [h]
  rfl

/-- Witness for C8 at the valid prompt `"hello"`. -/
theorem empty_catalog_not_error_witness :
    getRelevantSkillsModel (some "hello") [] [] = Except.ok ⟨[], 0⟩ :=
  empty_catalog_not_error (some "hello") [] "hello" rfl

/-- C7 (amended): a prompt is rejected with a structured validation failure
exactly when it is missing, or empty after trimming, or longer than 10000
characters *after trimming*; and a rejected input makes both entry points
return the failure — for any catalog and file context — so no scoring
output is ever produced for it. -/
theorem prompt_validation_amended :
    (∀ s : String, validatePrompt (some s) = Except.error () ↔
      ((trimStr s).length = 0 ∨ 10000 < (trimStr s).length)) ∧
    validatePrompt none = Except.error () ∧
    (∀ input : Option String, validatePrompt input = Except.error () →
      suggestAgentModel input = Except.error () ∧
      ∀ (files : List String) (skills : List Skill),
        getRelevantSkillsModel input files skills = Except.error ()) := by
  refine ⟨?_, rfl, ?_⟩
  · intro s
    simp only [validatePrompt]
    split_ifs with h1 h2
    · simp
      omega
    · simp
      omega
    · simp
      omega
  · intro input h
    unfold suggestAgentModel getRelevantSkillsModel
    rw [h]
    exact ⟨rfl, fun _ _ => rfl⟩

/-- Witness for C7 (amended): the whitespace-only prompt `"   "` is
rejected by both entry points. -/
theorem prompt_validation_witness :
    suggestAgentModel (some "   ") = Except.error () ∧
    getRelevantSkillsModel (some "   ") [] [] = Except.error () :=
  ⟨(prompt_validation_amended.2.2 (some "   ")
      ((prompt_validation_amended.1 "   ").mpr (Or.inl (by decide)))).1,
   (prompt_validation_amended.2.2 (some "   ")
      ((prompt_validation_amended.1 "   ").mpr (Or.inl (by decide)))).2 [] []⟩

/-- Trimming the 10001-character raw prompt drops exactly the trailing
space. -/
theorem trimChars_longPrompt :
    trimChars (List.replicate 10000 'a' ++ [' ']) =
      List.replicate 10000 'a' := by
  have ha : ¬ (isJsWhitespace 'a' = true) := by decide
  have hsp : isJsWhitespace ' ' = true := by decide
  have h1 : (List.replicate 10000 'a' ++ [' ']).dropWhile isJsWhitespace
      = List.replicate 10000 'a' ++ [' '] := by
    rw [show (10000 : Nat) = 9999 + 1 from rfl, List.replicate_succ,
      List.cons_append, List.dropWhile_cons_of_neg ha]
  have h2 : (List.replicate 10000 'a').dropWhile isJsWhitespace
      = List.replicate 10000 'a' := by
    rw [show (10000 : Nat) = 9999 + 1 from rfl, List.replicate_succ,
      List.dropWhile_cons_of_neg ha]
  unfold trimChars
  rw [h1, List.reverse_append, List.reverse_replicate,
    show ([' '] : List Char).reverse = [' '] from rfl,
    List.singleton_append, List.dropWhile_cons_of_pos hsp, h2,
    List.reverse_replicate]

/-- The 10001-character raw prompt passes validation: its trimmed length is
exactly 10000. -/
theorem validate_longPrompt :
    validatePrompt (some longPromptChars) =
      Except.ok ⟨List.replicate 10000 'a'⟩ := by
  have htrim : trimStr longPromptChars = ⟨List.replicate 10000 'a'⟩ :=
    congrArg String.mk trimChars_longPrompt
  have hlen : (⟨List.replicate 10000 'a'⟩ : String).length = 10000 := by
    show (List.replicate 10000 'a').length = 10000
    rw [List.length_replicate]
  simp only [validatePrompt, htrim]
  rw [if_neg (by omega), if_neg (by omega)]

/-- C7 counterexample: a raw prompt of 10001 characters (strictly longer
than the maximum accepted length of 10000) is *not* rejected — zod trims
before checking `.max(10000)`, so the agent scorer accepts it and scores
normally. -/
theorem prompt_length_precheck_cex :
    longPromptChars.length = 10001 ∧
    exceptIsOk (suggestAgentModel (some longPromptChars)) = true := by
  constructor
  · show (List.replicate 10000 'a' ++ [' ']).length = 10001
    rw [List.length_append, List.length_replicate]
    rfl
  · simp [suggestAgentModel, validate_longPrompt, exceptIsOk, Except.map]
